import Mathlib

/-!
Shallow embedding of the cozyctl build-and-deploy pipeline.

Each definition mirrors one Go function or data type of the repository:
* `internal/build/baseimage.go` : `normalizeCuda`, `normalizePython`,
  `isSupportedCuda`, `ResolveBaseImage`
* the function detector file : `DetectedFunction`, `ParseFunctionsFromFlag`,
  `findSignatureEnd` (with the `parseWorkerFunctions` fallback)
* the update command `Run` : function-source selection and the
  `UpdateDeploymentRequest` construction
* the tarball packager `CreateTarball` : walk/exclusion/traversal logic
* `internal/api/client.go` : status-code handling of the deployment
  create / update / get / delete operations
* the remote build poll loop of `BuildProjectOnServer`

Go strings are modelled as Lean `String` (contents are `List Char`); the
Go standard-library string helpers used by the code are re-implemented
below by structural recursion so that every definition evaluates inside
the kernel.  Fallible code returns `Except`.  A Go runtime panic
(out-of-range string slice) is modelled as `Except.error ()`.
-/

namespace Cozyctl

/-- Equality on `Except` results is decidable componentwise. -/
instance {ε α : Type} [DecidableEq ε] [DecidableEq α] : DecidableEq (Except ε α) := fun a b =>
  match a, b with
  | Except.ok x, Except.ok y =>
      if h : x = y then isTrue (by rw [h]) else isFalse (by intro hc; cases hc; exact h rfl)
  | Except.error x, Except.error y =>
      if h : x = y then isTrue (by rw [h]) else isFalse (by intro hc; cases hc; exact h rfl)
  | Except.ok _, Except.error _ => isFalse (by intro hc; cases hc)
  | Except.error _, Except.ok _ => isFalse (by intro hc; cases hc)

/-- Splitting a character list at every occurrence of `sep`, keeping empty
segments: the behaviour of Go `strings.Split` with a one-character
separator (`strings.Split("", sep) = [""]`, hence the singleton on nil). -/
def splitOnCharAux (sep : Char) : List Char → List Char → List (List Char)
  | [], acc => [acc.reverse]
  | c :: cs, acc =>
      if c = sep then acc.reverse :: splitOnCharAux sep cs []
      else splitOnCharAux sep cs (c :: acc)

/-- Go `strings.Split(v, sep)` for a one-character separator. -/
def splitOnChar (sep : Char) (l : List Char) : List (List Char) :=
  splitOnCharAux sep l []

/-- Go `strings.TrimSpace` on character lists (leading and trailing
whitespace removed). -/
def trimSpaceL (l : List Char) : List Char :=
  ((l.dropWhile Char.isWhitespace).reverse.dropWhile Char.isWhitespace).reverse

/-- Go `strings.TrimSpace`. -/
def trimSpace (s : String) : String :=
  String.mk (trimSpaceL s.data)

/-- Go `strings.TrimPrefix(v, p)`: drop `p` from the front of `v` when `v`
starts with `p`, otherwise return `v` unchanged. -/
def trimPref (v p : String) : String :=
  if p.data.isPrefixOf v.data then String.mk (v.data.drop p.data.length) else v

/-- Go `strings.HasPrefix`. -/
def goHasPref (s p : String) : Bool :=
  p.data.isPrefixOf s.data

/-- Go `strings.HasSuffix`. -/
def goHasSuffix (s p : String) : Bool :=
  p.data.isSuffixOf s.data

/-- ASCII lower-casing of one character, as Go `strings.ToLower` acts on
the ASCII inputs the CLI deals with. -/
def asciiLower (c : Char) : Char :=
  if 'A' ≤ c ∧ c ≤ 'Z' then Char.ofNat (c.toNat + 32) else c

/-- Go `strings.ToLower` (ASCII range). -/
def lowerString (s : String) : String :=
  String.mk (s.data.map asciiLower)

/-! ## Base image resolver (`internal/build/baseimage.go`) -/

def DefaultRegistry : String := "cozycreator/gen-worker"

def DefaultPython : String := "3.11"

def DefaultCuda : String := "12.6"

def DefaultTorchTag : String := "torch2.9"

def SupportedCudaVersions : List String := ["13", "12.8", "12.6"]

/-- `normalizePython` of `baseimage.go`: trim space, strip a
`python`/`py` lead, keep only `major.minor`. -/
def normalizePython (v : String) : String :=
  let v := trimSpace v
  let v := trimPref v "python"
  let v := trimPref v "py"
  match splitOnChar '.' v.data with
  | p0 :: p1 :: _ => String.mk (p0 ++ '.' :: p1)
  | _ => v

/-- `normalizeCuda` of `baseimage.go`: trim space, strip a `cuda`/`cu`
lead, keep `major.minor`, and when the minor part is exactly `"0"` keep
only the major part. -/
def normalizeCuda (v : String) : String :=
  let v := trimSpace v
  let v := trimPref v "cuda"
  let v := trimPref v "cu"
  match splitOnChar '.' v.data with
  | p0 :: p1 :: _ => if p1 = ['0'] then String.mk p0 else String.mk (p0 ++ '.' :: p1)
  | _ => v

/-- `isSupportedCuda` of `baseimage.go`. -/
def isSupportedCuda (v : String) : Bool :=
  SupportedCudaVersions.contains v

/-- Per-function manifest entry (`[tool.cozy.functions]` table value).
Modelled from the spec: the current `ToolsCozyConfig` struct definition is
not under `src/` (only an older revision without the table, and its use
sites, are); the spec's manifest schema gives a function-requirements
table keyed by function name with a GPU-required boolean. -/
structure FunctionConfig where
  requiresGPU : Bool
deriving Repr, DecidableEq

/-- `ToolsCozyConfig` of the build package (`[tool.cozy]` manifest data).
The `functions` table is carried as an association list; all other fields
follow the struct in the source. -/
structure ToolsCozyConfig where
  deploymentID : String := ""
  python : String := ""
  pytorch : String := ""
  cuda : String := ""
  root : String := ""
  environment : List (String × String) := []
  entrypoint : String := ""
  functions : List (String × FunctionConfig) := []
deriving Repr, DecidableEq

/-- The `%v` rendering Go uses for `SupportedCudaVersions` inside the
unsupported-runtime error message. -/
def supportedCudaRendered : String := "[13 12.8 12.6]"

/-- `ResolveBaseImage` of `baseimage.go`: map the runtime triple to a
container base image tag, or fail on an unsupported CUDA version. -/
def ResolveBaseImage (cfg : ToolsCozyConfig) : Except String String :=
  if cfg.pytorch ≠ "" ∧ cfg.cuda ≠ "" then
    let cuda := normalizeCuda cfg.cuda
    if ¬ isSupportedCuda cuda then
      Except.error ("unsupported CUDA version: " ++ cuda ++ " (supported: " ++ supportedCudaRendered ++ ")")
    else
      Except.ok (DefaultRegistry ++ ":cuda" ++ cuda ++ "-" ++ DefaultTorchTag)
  else if cfg.pytorch ≠ "" then
    Except.ok (DefaultRegistry ++ ":cpu-" ++ DefaultTorchTag)
  else if cfg.cuda ≠ "" then
    let cuda := normalizeCuda cfg.cuda
    if ¬ isSupportedCuda cuda then
      Except.error ("unsupported CUDA version: " ++ cuda ++ " (supported: " ++ supportedCudaRendered ++ ")")
    else
      Except.ok (DefaultRegistry ++ ":cuda" ++ cuda ++ "-" ++ DefaultTorchTag)
  else
    let py := normalizePython cfg.python
    let py := if py = "" then DefaultPython else py
    Except.ok ("python:" ++ py ++ "-slim")

/-! ## Function detector (flag parsing and signature scanning) -/

/-- `DetectedFunction` of the detector file: a worker function name and
whether it needs GPU resources. -/
structure DetectedFunction where
  name : String
  requiresGPU : Bool
deriving Repr, DecidableEq

/-- Go `strings.SplitN(s, ":", 2)`: at most two pieces, the second keeps
any further separators. -/
def splitN2Colon (s : String) : List String :=
  match splitOnChar ':' s.data with
  | [] => [s]
  | [p] => [String.mk p]
  | p :: rest => [String.mk p, String.mk (List.intercalate [':'] rest)]

/-- The per-pair body of `ParseFunctionsFromFlag`: empty names are skipped,
a missing GPU marker defaults to required, and `true`/`1`/`yes`
(case-insensitively) mean GPU required. -/
def parseFlagPairs : List String → List DetectedFunction
  | [] => []
  | pair :: rest =>
      match splitN2Colon (trimSpace pair) with
      | [] => parseFlagPairs rest
      | p0 :: ps =>
          if p0 = "" then parseFlagPairs rest
          else
            let funcName := trimSpace p0
            let requiresGPU :=
              match ps with
              | [p1] =>
                  let val := lowerString (trimSpace p1)
                  (val == "true") || (val == "1") || (val == "yes")
              | _ => true
            ⟨funcName, requiresGPU⟩ :: parseFlagPairs rest

/-- `ParseFunctionsFromFlag` of the detector file: parse a comma-separated
`name:gpu` specification (the Go version returns a never-used error slot,
dropped here). -/
def ParseFunctionsFromFlag (spec : String) : List DetectedFunction :=
  if spec = "" then []
  else parseFlagPairs ((splitOnChar ',' spec.data).map String.mk)

/-- The function-source selection of the update command `Run`: skipped in
image-only mode, otherwise the CLI flag wins, then the manifest table,
then the source scan, never merged. -/
def selectFunctions (imageOnly : Bool) (flagSpec : String)
    (manifestFunctions : List (String × FunctionConfig))
    (scanned : List DetectedFunction) : List DetectedFunction :=
  if imageOnly then []
  else if flagSpec ≠ "" then ParseFunctionsFromFlag flagSpec
  else if manifestFunctions.length > 0 then
    manifestFunctions.map (fun nc => ⟨nc.1, nc.2.requiresGPU⟩)
  else scanned

/-- Go string slice `content[i:j]` (caller in the source guarantees the
bounds where it does not panic). -/
def goSlice (content : List Char) (i j : Nat) : List Char :=
  (content.drop i).take (j - i)

/-- Three copies of a quote character, the shape of a Python triple-quote
delimiter. -/
def tripleOf (c : Char) : List Char := [c, c, c]

/-- The colon search of `findSignatureEnd` after the closing parenthesis:
scan `j` forward from `i+1` while `j < len` and `j < i+50`, returning
`j+1` at the first colon and `i+1` when none is found.  The fuel argument
only bounds the recursion; 50 units cover the whole window. -/
def colonScanAux (content : List Char) (i : Nat) : Nat → Nat → Int
  | 0, _ => (i : Int) + 1
  | fuel + 1, j =>
      if h : j < content.length ∧ j < i + 50 then
        if content.get ⟨j, h.1⟩ = ':' then (j : Int) + 1
        else colonScanAux content i fuel (j + 1)
      else (i : Int) + 1

/-- The colon search started the way the source starts it. -/
def colonScan (content : List Char) (i : Nat) : Int :=
  colonScanAux content i 50 (i + 1)

/-- The character-scanning loop of `findSignatureEnd`.  One fuel unit per
iteration; 1000 units cover the `i < start+1000` window, so running out of
fuel coincides with the loop condition failing and returns `-1` exactly as
the source does.  The branch structure mirrors the Go loop:

* outside a string, a quote first evaluates
  `i+2 < len(content) && content[i:i+3] == triple-double-quote`, and when
  that conjunction is false Go goes on to evaluate
  `content[i:i+3] == triple-single-quote`; with `i+2 ≥ len(content)` that
  second slice is out of range and the program panics, modelled as
  `Except.error ()`;
* inside a string, the matching quote ends it, with triple-quote and
  escaped-quote handling;
* outside a string, parentheses adjust the depth, and the first closing
  parenthesis at depth 0 hands over to the colon search. -/
def sigScanAux (content : List Char) (start : Nat) :
    Nat → Nat → Int → Bool → Char → Except Unit Int
  | 0, _, _, _, _ => Except.ok (-1)
  | fuel + 1, i, depth, inString, stringChar =>
      if h : i < content.length ∧ i < start + 1000 then
        let c := content.get ⟨i, h.1⟩
        if ¬ inString ∧ (c = '"' ∨ c = '\'') then
          if i + 2 < content.length then
            if goSlice content i (i + 3) = tripleOf '"' ∨
                goSlice content i (i + 3) = tripleOf '\'' then
              sigScanAux content start fuel (i + 3) depth true c
            else
              sigScanAux content start fuel (i + 1) depth true c
          else
            Except.error ()
        else if inString then
          if c = stringChar then
            if i + 2 < content.length ∧
                goSlice content i (i + 3) = tripleOf stringChar then
              sigScanAux content start fuel (i + 3) depth false stringChar
            else if 0 < i ∧ content.get? (i - 1) ≠ some '\\' then
              sigScanAux content start fuel (i + 1) depth false stringChar
            else
              sigScanAux content start fuel (i + 1) depth true stringChar
          else
            sigScanAux content start fuel (i + 1) depth inString stringChar
        else
          if c = '(' then
            sigScanAux content start fuel (i + 1) (depth + 1) inString stringChar
          else if c = ')' then
            if depth - 1 < 0 then Except.ok (colonScan content i)
            else sigScanAux content start fuel (i + 1) (depth - 1) inString stringChar
          else
            sigScanAux content start fuel (i + 1) depth inString stringChar
      else
        Except.ok (-1)

/-- `findSignatureEnd` of the detector file: position just past the `:`
ending a decorated function signature, `-1` when not found inside the
window, `Except.error ()` on the out-of-range slice panic. -/
def findSignatureEnd (content : List Char) (start : Nat) : Except Unit Int :=
  sigScanAux content start 1000 start 0 false (Char.ofNat 0)

/-- The `sigEnd` computation of `parseWorkerFunctions`: the scanner result,
falling back to `min(start+500, len(content))` when the scanner reports
`-1`. -/
def signatureEnd (content : List Char) (start : Nat) : Except Unit Nat :=
  match findSignatureEnd content start with
  | Except.error e => Except.error e
  | Except.ok r => if r = -1 then Except.ok (min (start + 500) content.length) else Except.ok r.toNat

/-! ## Source packager (`CreateTarball`) -/

/-- An abstract directory tree: the data `filepath.Walk` hands the
callback (entry name, directory/file/symlink kind, children). -/
inductive FsNode where
  | file (name : String)
  | dir (name : String) (children : List FsNode)
  | symlink (name : String)
deriving Repr

/-- `excludedDirs` of the packager file. -/
def excludedDirs : List String :=
  [".git", "__pycache__", "node_modules", ".venv", "venv", ".tox",
   ".mypy_cache", ".pytest_cache", ".ruff_cache"]

/-- `excludedFiles` of the packager file. -/
def excludedFiles : List String :=
  [".env", ".DS_Store", "Dockerfile", "Thumbs.db"]

/-- Forward-slash join of relative path segments, the shape
`filepath.Rel` returns for paths produced by the walk. -/
def joinRel : List String → String
  | [] => ""
  | [s] => s
  | s :: rest => s ++ "/" ++ joinRel rest

mutual
/-- The `CreateTarball` walk callback on one non-root node, given the
relative path segments of its parent: symlinks are skipped, excluded and
hidden directories prune their subtree, excluded and `.pyc` files are
skipped, a relative path starting with `..` aborts the walk with the
path-traversal error, and every surviving path is recorded as a tar
header name (directories before their children). -/
def tarWalkNode (segs : List String) : FsNode → Except String (List String)
  | FsNode.symlink _ => Except.ok []
  | FsNode.file name =>
      if excludedFiles.contains name then Except.ok []
      else if goHasSuffix name ".pyc" then Except.ok []
      else
        let rel := joinRel (segs ++ [name])
        if goHasPref rel ".." then Except.error ("path traversal detected: " ++ rel)
        else Except.ok [rel]
  | FsNode.dir name children =>
      if excludedDirs.contains name then Except.ok []
      else if goHasPref name "." then Except.ok []
      else
        let rel := joinRel (segs ++ [name])
        if goHasPref rel ".." then Except.error ("path traversal detected: " ++ rel)
        else
          match tarWalkChildren (segs ++ [name]) children with
          | Except.error e => Except.error e
          | Except.ok rest => Except.ok (rel :: rest)

/-- The walk over a list of sibling nodes, aborting at the first error as
`filepath.Walk` does when the callback returns one. -/
def tarWalkChildren (segs : List String) : List FsNode → Except String (List String)
  | [] => Except.ok []
  | c :: cs =>
      match tarWalkNode segs c with
      | Except.error e => Except.error e
      | Except.ok r =>
          match tarWalkChildren segs cs with
          | Except.error e => Except.error e
          | Except.ok rs => Except.ok (r ++ rs)
end

/-- `CreateTarball` on a project directory named `rootName` with the given
entries: the root itself is exempt from the hidden-directory rule and its
`"."` relative path is never stored; an excluded root name prunes
everything.  The result is the list of stored tar header names. -/
def CreateTarballEntries (rootName : String) (children : List FsNode) :
    Except String (List String) :=
  if excludedDirs.contains rootName then Except.ok []
  else tarWalkChildren [] children

/-! ## Orchestrator API client (`internal/api/client.go`) -/

/-- `FunctionRequirement` of `internal/api/types.go`. -/
structure FunctionRequirement where
  name : String
  requiresGPU : Bool
deriving Repr, DecidableEq

/-- The parts of `DeploymentResponse` the modelled code paths read. -/
structure DeploymentResponse where
  id : String := ""
  tenantID : String := ""
  name : String := ""
  imageURL : String := ""
  functionRequirements : List FunctionRequirement := []
  minWorkers : Int := 0
  maxWorkers : Int := 0
deriving Repr, DecidableEq

/-- An HTTP response body as the client inspects it: the raw text, the
message when it JSON-decodes to an `ErrorResponse` with a non-empty
`Message`, and the deployment when it decodes to a `DeploymentResponse`. -/
structure HttpBody where
  raw : String := ""
  errMessage : Option String := none
  deployment : Option DeploymentResponse := none
deriving Repr, DecidableEq

/-- The generic non-2xx error text the client builds: the server message
when one is available, otherwise the raw body. -/
def apiErrorText (code : Nat) (body : HttpBody) : String :=
  match body.errMessage with
  | some m => "API error (" ++ toString code ++ "): " ++ m
  | none => "API error (" ++ toString code ++ "): " ++ body.raw

/-- Decoding the success body into a deployment record. -/
def parseDeployment (body : HttpBody) : Except String DeploymentResponse :=
  match body.deployment with
  | some d => Except.ok d
  | none => Except.error "failed to parse response"

/-- The response handling of `CreateDeployment`: 409 gets the dedicated
already-exists message, other non-201/200 codes the generic API error. -/
def CreateDeploymentResult (reqId : String) (code : Nat) (body : HttpBody) :
    Except String DeploymentResponse :=
  if code = 409 then
    Except.error ("deployment '" ++ reqId ++ "' already exists (use 'cozyctl update' to update)")
  else if code ≠ 201 ∧ code ≠ 200 then Except.error (apiErrorText code body)
  else parseDeployment body

/-- The response handling of `UpdateDeployment`: 404 gets the dedicated
not-found message, other non-200 codes the generic API error. -/
def UpdateDeploymentResult (id : String) (code : Nat) (body : HttpBody) :
    Except String DeploymentResponse :=
  if code = 404 then
    Except.error ("deployment '" ++ id ++ "' not found (use 'cozyctl deploy' to create)")
  else if code ≠ 200 then Except.error (apiErrorText code body)
  else parseDeployment body

/-- The response handling of `GetDeployment`: 404 yields no deployment and
no error, other non-200 codes the generic API error. -/
def GetDeploymentResult (code : Nat) (body : HttpBody) :
    Except String (Option DeploymentResponse) :=
  if code = 404 then Except.ok none
  else if code ≠ 200 then Except.error (apiErrorText code body)
  else Except.map some (parseDeployment body)

/-- The response handling of `DeleteDeployment`: 404 gets a dedicated
not-found message, other non-200 codes the generic API error. -/
def DeleteDeploymentResult (id : String) (code : Nat) (body : HttpBody) :
    Except String Unit :=
  if code = 404 then Except.error ("deployment '" ++ id ++ "' not found")
  else if code ≠ 200 then Except.error (apiErrorText code body)
  else Except.ok ()

/-- The existence check of the update command `Run`: a `nil` deployment
from `GetDeployment` becomes the dedicated use-create error. -/
def checkExistingDeployment (id : String) (existing : Option DeploymentResponse) :
    Except String DeploymentResponse :=
  match existing with
  | none => Except.error ("deployment '" ++ id ++ "' not found (use 'cozyctl deploy' to create)")
  | some d => Except.ok d

/-! ## Remote build poll loop (`BuildProjectOnServer`) -/

/-- One iteration's observation in the poll loop: either the status query
itself failed, or it returned a build status string together with the
build's error text. -/
inductive PollResult where
  | queryFailed (msg : String)
  | polled (status : String) (errText : String)
deriving Repr, DecidableEq

/-- Terminal outcome of the poll loop. -/
inductive BuildOutcome where
  | success
  | buildFailed (msg : String)
  | timedOut
deriving Repr, DecidableEq

/-- The poll loop of `BuildProjectOnServer` over the sequence of
observations made before the deadline (list exhaustion models the
deadline): a failed status query logs a warning and retries; `"success"`
and `"failed"` return immediately; `"pending"`, `"running"` and unknown
statuses sleep and retry. -/
def pollLoop : List PollResult → BuildOutcome
  | [] => BuildOutcome.timedOut
  | PollResult.queryFailed _ :: rest => pollLoop rest
  | PollResult.polled status errText :: rest =>
      if status = "success" then BuildOutcome.success
      else if status = "failed" then
        BuildOutcome.buildFailed (if errText = "" then "unknown error" else errText)
      else pollLoop rest

/-- An observation that does not terminate the loop: a failed query or a
non-terminal status. -/
def nonTerminal : PollResult → Bool
  | PollResult.queryFailed _ => true
  | PollResult.polled status _ => !(status == "success" || status == "failed")

/-! ## Deployment update request (`update.Run` and `types.go`) -/

/-- `UpdateDeploymentRequest` of `internal/api/types.go`; the two worker
bounds are pointers in Go, hence options here. -/
structure UpdateDeploymentRequest where
  name : String := ""
  imageURL : String := ""
  functionRequirements : List FunctionRequirement := []
  supportedModelIDs : List String := []
  runpodSecretMapping : List (String × String) := []
  minWorkers : Option Int := none
  maxWorkers : Option Int := none
deriving Repr, DecidableEq

/-- The JSON keys `encoding/json` serializes for an update request: every
field carries `omitempty`, so empty strings, empty collections and nil
pointers are omitted. -/
def serializedKeys (r : UpdateDeploymentRequest) : List String :=
  (if r.name ≠ "" then ["name"] else []) ++
  (if r.imageURL ≠ "" then ["image_url"] else []) ++
  (if r.functionRequirements ≠ [] then ["function_requirements"] else []) ++
  (if r.supportedModelIDs ≠ [] then ["supported_model_ids"] else []) ++
  (if r.runpodSecretMapping ≠ [] then ["runpod_secret_mapping"] else []) ++
  (if r.minWorkers.isSome then ["min_workers"] else []) ++
  (if r.maxWorkers.isSome then ["max_workers"] else [])

/-- The update options of the update command (`--functions`,
`--min-workers`, `--max-workers`, `--image-only`; the worker flags default
to `-1`, meaning keep the existing value). -/
structure UpdateOptions where
  functions : String := ""
  minWorkers : Int := -1
  maxWorkers : Int := -1
  imageOnly : Bool := false
deriving Repr, DecidableEq

/-- The request construction of the update command `Run`: the image URL is
always set, function requirements only outside image-only mode and when
functions were determined, and each worker bound only when its flag is
non-negative. -/
def buildUpdateRequest (opts : UpdateOptions) (functions : List DetectedFunction)
    (imageTag : String) : UpdateDeploymentRequest :=
  let req : UpdateDeploymentRequest := { imageURL := imageTag }
  let req :=
    if ¬ opts.imageOnly ∧ functions.length > 0 then
      { req with functionRequirements := functions.map (fun fn => ⟨fn.name, fn.requiresGPU⟩) }
    else req
  let req := if opts.minWorkers ≥ 0 then { req with minWorkers := some opts.minWorkers } else req
  let req := if opts.maxWorkers ≥ 0 then { req with maxWorkers := some opts.maxWorkers } else req
  req

/-! ## Concrete fixtures used by theorem statements -/

/-- The manifest of the repository's own test project: `pytorch = "2.5"`,
`cuda = "12.6"`. -/
def cfgTorch25Cuda126 : ToolsCozyConfig := { pytorch := "2.5", cuda := "12.6" }

/-- A 409/404 response body whose JSON decodes to an `ErrorResponse` with
a message, so the generic path would have a server message available. -/
def bodyConflict : HttpBody := { raw := "conflict", errMessage := some "conflict" }

/-- A decorated function whose multi-line signature holds a default value
with a string literal containing parentheses (`"a (test(x)"`) and a
nested-parenthesis expression (`((1))`).  The regex of
`parseWorkerFunctions` ends its match right after the `(` at index 32, so
the scan starts at 33; the top-level closing parenthesis sits at index 88
and the signature-ending colon at index 98. -/
def nestedSignatureContent : List Char :=
  "@worker_function()\ndef generate(\n    prompt: str = \"a (test(x)\",\n    size: int = ((1)),\n) -> bytes:\n    return 1".data

/-! ## Theorems -/

/-- C1 counterexample: on `"cuda12.60"` the code splits into major `12`
and minor `60` and, the minor not being `"0"`, returns `"12.60"`, not the
`"12.6"` the claim states. -/
theorem normalizeCuda_cuda1260_cex : normalizeCuda "cuda12.60" ≠ "12.6" := by decide

/-- C1 (amended): the CUDA version normalization strips the `cuda` prefix
and keeps `major.minor` as split at the dots, so `"cuda12.60"` yields
`"12.60"`, and a trailing `".0"` minor is dropped, so `"cuda13.0"` yields
`"13"`. -/
theorem normalizeCuda_examples :
    normalizeCuda "cuda12.60" = "12.60" ∧ normalizeCuda "cuda13.0" = "13" := by decide

/-- C2: with a CUDA version set, a supported normalized CUDA version
resolves to the GPU tag holding that version and the fixed torch tag, an
unsupported one fails with the unsupported-runtime error, and the result
is identical whether pytorch is absent or set to any non-empty version. -/
theorem resolveBaseImage_gpu_cases (cfg : ToolsCozyConfig) (p : String)
    (hc : cfg.cuda ≠ "") (hp : p ≠ "") :
    (isSupportedCuda (normalizeCuda cfg.cuda) = true →
      ResolveBaseImage cfg =
        Except.ok (DefaultRegistry ++ ":cuda" ++ normalizeCuda cfg.cuda ++ "-" ++ DefaultTorchTag)) ∧
    (isSupportedCuda (normalizeCuda cfg.cuda) = false →
      ResolveBaseImage cfg =
        Except.error ("unsupported CUDA version: " ++ normalizeCuda cfg.cuda ++
          " (supported: " ++ supportedCudaRendered ++ ")")) ∧
    ResolveBaseImage cfg = ResolveBaseImage { cfg with pytorch := p } := by
  by_cases hpy : cfg.pytorch = "" <;>
    by_cases hsup : isSupportedCuda (normalizeCuda cfg.cuda) = true <;>
      simp_all [ResolveBaseImage, hc, hp, hpy, hsup]

/-- C2 witness: the test project's manifest resolves to exactly
`cozycreator/gen-worker:cuda12.6-torch2.9`. -/
theorem resolveBaseImage_gpu_cases_witness :
    ResolveBaseImage cfgTorch25Cuda126 = Except.ok "cozycreator/gen-worker:cuda12.6-torch2.9" := by
  have h := (resolveBaseImage_gpu_cases cfgTorch25Cuda126 "2.5" (by decide) (by decide)).1 (by decide)
  exact h.trans (congrArg Except.ok (by decide))

/-- C3: the detected functions come from exactly one source in priority
order: a non-empty flag yields exactly the flag parse, independently of
manifest and scan; with no flag a non-empty manifest table yields exactly
the table; with neither, the scan result stands; and the flag
`"generate:true,health:false"` yields exactly the two stated functions. -/
theorem functions_single_source (flagSpec : String)
    (manifest : List (String × FunctionConfig)) (scanned : List DetectedFunction)
    (hflag : flagSpec ≠ "") :
    selectFunctions false flagSpec manifest scanned = ParseFunctionsFromFlag flagSpec ∧
    (∀ manifest2 scanned2, selectFunctions false flagSpec manifest2 scanned2 =
      selectFunctions false flagSpec manifest scanned) ∧
    selectFunctions false "generate:true,health:false" manifest scanned =
      [⟨"generate", true⟩, ⟨"health", false⟩] ∧
    (manifest ≠ [] → selectFunctions false "" manifest scanned =
      manifest.map (fun nc => ⟨nc.1, nc.2.requiresGPU⟩)) ∧
    selectFunctions false "" [] scanned = scanned := by
  refine ⟨by simp [selectFunctions, hflag], fun m2 s2 => by simp [selectFunctions, hflag], ?_, ?_, ?_⟩
  · have hpf : ParseFunctionsFromFlag "generate:true,health:false" =
        [⟨"generate", true⟩, ⟨"health", false⟩] := by decide
    simp [selectFunctions, hpf]
  · intro hm
    have : manifest.length > 0 := List.length_pos.mpr hm
    simp [selectFunctions, this]
  · simp [selectFunctions]

/-- C3 witness: the flag `"generate:true,health:false"` wins over a
manifest table and a scan result, yielding exactly the two functions. -/
theorem functions_single_source_witness :
    selectFunctions false "generate:true,health:false" [("m", ⟨true⟩)] [⟨"s", false⟩] =
      [⟨"generate", true⟩, ⟨"health", false⟩] :=
  (functions_single_source "generate:true,health:false" [("m", ⟨true⟩)] [⟨"s", false⟩]
    (by decide)).2.2.1

/-- Helper for C4: the colon search never reports a position past `i + 50`. -/
lemma colonScanAux_le (content : List Char) (i : Nat) :
    ∀ fuel j, colonScanAux content i fuel j ≤ (i : Int) + 50 := by
  intro fuel
  induction fuel with
  | zero => intro j; simp only [colonScanAux]; omega
  | succ n ih =>
      intro j
      simp only [colonScanAux]
      split
      · split
        · rename_i hw _
          have := hw.2
          omega
        · exact ih (j + 1)
      · omega

/-- Helper for C4: any position the scan loop reports stays inside the
bounded forward window (`start + 1000` loop window plus the 50-character
colon search). -/
lemma sigScanAux_ok_le (content : List Char) (start : Nat) :
    ∀ fuel i depth inString stringChar r,
      sigScanAux content start fuel i depth inString stringChar = Except.ok r →
      r ≤ (start : Int) + 1049 := by
  intro fuel
  induction fuel with
  | zero =>
      intro i depth inString stringChar r h
      simp only [sigScanAux] at h
      injection h with h1
      omega
  | succ n ih =>
      intro i depth inString stringChar r h
      simp only [sigScanAux] at h
      split at h
      · rename_i hw
        split at h
        · split at h
          · split at h
            · exact ih _ _ _ _ _ h
            · exact ih _ _ _ _ _ h
          · exact Except.noConfusion h
        · split at h
          · split at h
            · split at h
              · exact ih _ _ _ _ _ h
              · split at h
                · exact ih _ _ _ _ _ h
                · exact ih _ _ _ _ _ h
            · exact ih _ _ _ _ _ h
          · split at h
            · exact ih _ _ _ _ _ h
            · split at h
              · split at h
                · injection h with h1
                  have hb := colonScanAux_le content i 50 (i + 1)
                  simp only [colonScan] at h1
                  have := hw.2
                  omega
                · exact ih _ _ _ _ _ h
              · exact ih _ _ _ _ _ h
      · injection h with h1
        omega

/-- C4: on the multi-line signature whose default values hold nested
parentheses and a string literal containing parentheses, the scanner
reports position 99, one past the colon at 98 that follows the first
top-level closing parenthesis at 88; every reported position stays inside
the bounded forward window; and a `-1` (no end inside the window) makes
`parseWorkerFunctions` fall back to the fixed `min(start+500, len)`
truncation. -/
theorem findSignatureEnd_nested_parens :
    findSignatureEnd nestedSignatureContent 33 = Except.ok 99 ∧
    (nestedSignatureContent.get? 88 = some ')' ∧ nestedSignatureContent.get? 98 = some ':') ∧
    (∀ content start r, findSignatureEnd content start = Except.ok r → r ≤ (start : Int) + 1049) ∧
    (∀ content start, findSignatureEnd content start = Except.ok (-1) →
      signatureEnd content start = Except.ok (min (start + 500) content.length)) := by
  refine ⟨by decide, by decide, ?_, ?_⟩
  · intro content start r h
    exact sigScanAux_ok_le content start 1000 start 0 false (Char.ofNat 0) r h
  · intro content start h
    simp [signatureEnd, h]

/-- C4 witness: a content with no signature end makes the scanner report
`-1` and the caller fall back to the fixed-length truncation, here capped
by the content length. -/
theorem findSignatureEnd_nested_parens_witness :
    signatureEnd "abc".data 0 = Except.ok 3 := by
  have h := findSignatureEnd_nested_parens.2.2.2 "abc".data 0 (by decide)
  exact h.trans (by decide)

mutual
/-- Helper for C5: every tar header name a successful walk of a non-root
node emits is free of a leading parent-directory traversal sequence. -/
theorem tarWalkNode_safe : ∀ (segs : List String) (t : FsNode) (names : List String),
    tarWalkNode segs t = Except.ok names → ∀ n ∈ names, goHasPref n ".." = false
  | segs, FsNode.symlink nm, names, h => by
      simp only [tarWalkNode] at h
      injection h with h1
      subst h1
      intro n hn
      cases hn
  | segs, FsNode.file nm, names, h => by
      simp only [tarWalkNode] at h
      split at h
      · injection h with h1; subst h1; intro n hn; cases hn
      · split at h
        · injection h with h1; subst h1; intro n hn; cases hn
        · split at h
          · exact Except.noConfusion h
          · rename_i hpref
            injection h with h1
            subst h1
            intro n hn
            rw [List.mem_singleton] at hn
            subst hn
            simpa using hpref
  | segs, FsNode.dir nm children, names, h => by
      simp only [tarWalkNode] at h
      split at h
      · injection h with h1; subst h1; intro n hn; cases hn
      · split at h
        · injection h with h1; subst h1; intro n hn; cases hn
        · split at h
          · exact Except.noConfusion h
          · rename_i hpref
            split at h
            · exact Except.noConfusion h
            · rename_i rest heq
              injection h with h1
              subst h1
              intro n hn
              rw [List.mem_cons] at hn
              cases hn with
              | inl he => subst he; simpa using hpref
              | inr hm => exact tarWalkChildren_safe (segs ++ [nm]) children rest heq n hm

/-- Helper for C5: the sibling-list version of `tarWalkNode_safe`. -/
theorem tarWalkChildren_safe : ∀ (segs : List String) (l : List FsNode) (names : List String),
    tarWalkChildren segs l = Except.ok names → ∀ n ∈ names, goHasPref n ".." = false
  | segs, [], names, h => by
      simp only [tarWalkChildren] at h
      injection h with h1
      subst h1
      intro n hn
      cases hn
  | segs, c :: cs, names, h => by
      simp only [tarWalkChildren] at h
      split at h
      · exact Except.noConfusion h
      · rename_i r heq1
        split at h
        · exact Except.noConfusion h
        · rename_i rs heq2
          injection h with h1
          subst h1
          intro n hn
          rw [List.mem_append] at hn
          cases hn with
          | inl hm => exact tarWalkNode_safe segs c r heq1 n hm
          | inr hm => exact tarWalkChildren_safe segs cs rs heq2 n hm
end

/-- C5: a successful packaging run stores no archive entry whose relative
path starts with `..`; a file whose resolved relative path does start with
`..` (and that no earlier exclusion rule removes) aborts the walk with the
path-traversal error; and concretely a tree containing `..evil` fails with
exactly that error instead of emitting anything. -/
theorem tarball_never_traversal :
    (∀ rootName children names,
      CreateTarballEntries rootName children = Except.ok names →
      ∀ n ∈ names, goHasPref n ".." = false) ∧
    (∀ segs name, excludedFiles.contains name = false → goHasSuffix name ".pyc" = false →
      goHasPref (joinRel (segs ++ [name])) ".." = true →
      tarWalkNode segs (FsNode.file name) =
        Except.error ("path traversal detected: " ++ joinRel (segs ++ [name]))) ∧
    CreateTarballEntries "proj" [FsNode.file "a.py", FsNode.file "..evil", FsNode.file "b.py"]
      = Except.error "path traversal detected: ..evil" := by
  refine ⟨?_, ?_, by decide⟩
  · intro rootName children names h n hn
    simp only [CreateTarballEntries] at h
    split at h
    · injection h with h1; subst h1; cases hn
    · exact tarWalkChildren_safe [] children names h n hn
  · intro segs name hex hpyc hpref
    have hex2 : name ∉ excludedFiles := by simpa using hex
    simp [tarWalkNode, hex2, hpyc, hpref]

/-- C5 witness: a stored entry of a successful packaging run, here
`src/m.py` of a clean tree, has no leading traversal sequence. -/
theorem tarball_never_traversal_witness :
    goHasPref "src/m.py" ".." = false :=
  tarball_never_traversal.1 "proj" [FsNode.dir "src" [FsNode.file "m.py"]] ["src", "src/m.py"]
    (by decide) "src/m.py" (by decide)

/-- C6: creating a deployment against a 409 answer yields the dedicated
already-exists message suggesting the update command, updating against a
404 answer the dedicated not-found message suggesting the deploy
(create) command, and neither equals the generic API error built from the
same response. -/
theorem deployment_conflict_notfound_errors (id : String) (body : HttpBody) :
    CreateDeploymentResult id 409 body =
      Except.error ("deployment '" ++ id ++ "' already exists (use 'cozyctl update' to update)") ∧
    UpdateDeploymentResult id 404 body =
      Except.error ("deployment '" ++ id ++ "' not found (use 'cozyctl deploy' to create)") ∧
    CreateDeploymentResult "dep1" 409 bodyConflict ≠ Except.error (apiErrorText 409 bodyConflict) ∧
    UpdateDeploymentResult "dep1" 404 bodyConflict ≠ Except.error (apiErrorText 404 bodyConflict) :=
  ⟨by simp [CreateDeploymentResult], by simp [UpdateDeploymentResult], by decide, by decide⟩

/-- C7: the poll loop returns the build-failed outcome at the first
observation of status `"failed"`, after any run of failed queries and
non-terminal statuses and regardless of everything the deadline would
still have allowed afterwards; and a failed status query just moves on to
the next poll. -/
theorem pollLoop_fail_fast (pre rest : List PollResult) (e : String)
    (hpre : ∀ r ∈ pre, nonTerminal r = true) :
    pollLoop (pre ++ PollResult.polled "failed" e :: rest) =
      BuildOutcome.buildFailed (if e = "" then "unknown error" else e) ∧
    (∀ m rest2, pollLoop (PollResult.queryFailed m :: rest2) = pollLoop rest2) := by
  constructor
  · induction pre with
    | nil => simp [pollLoop]
    | cons r rs ih =>
        have hr := hpre r (by simp)
        have hrs : ∀ x ∈ rs, nonTerminal x = true := fun x hx => hpre x (by simp [hx])
        cases r with
        | queryFailed m => simpa [pollLoop] using ih hrs
        | polled s t =>
            simp only [nonTerminal, Bool.not_eq_true', Bool.or_eq_false_iff,
              beq_eq_false_iff_ne, ne_eq] at hr
            simp only [List.cons_append, pollLoop, if_neg hr.1, if_neg hr.2]
            exact ih hrs
  · intro m rest2; rfl

/-- C7 witness: after a failed query and a running status, the first
`"failed"` poll ends the loop with its error text even though a later
poll would have reported success. -/
theorem pollLoop_fail_fast_witness :
    pollLoop [PollResult.queryFailed "net", PollResult.polled "running" "",
      PollResult.polled "failed" "boom", PollResult.polled "success" ""] =
      BuildOutcome.buildFailed "boom" := by
  have h := (pollLoop_fail_fast [PollResult.queryFailed "net", PollResult.polled "running" ""]
    [PollResult.polled "success" ""] "boom" (by decide)).1
  exact h.trans (by decide)

/-- Helper for C8: the update request in explicit field form. -/
lemma buildUpdateRequest_eq (opts : UpdateOptions)
    (functions : List DetectedFunction) (tag : String) :
    buildUpdateRequest opts functions tag =
      { imageURL := tag,
        functionRequirements :=
          if ¬ opts.imageOnly ∧ functions.length > 0 then
            functions.map (fun fn => ⟨fn.name, fn.requiresGPU⟩)
          else [],
        minWorkers := if opts.minWorkers ≥ 0 then some opts.minWorkers else none,
        maxWorkers := if opts.maxWorkers ≥ 0 then some opts.maxWorkers else none } := by
  by_cases h1 : ¬ opts.imageOnly ∧ functions.length > 0 <;>
    by_cases h2 : opts.minWorkers ≥ 0 <;>
      by_cases h3 : opts.maxWorkers ≥ 0 <;>
        simp only [buildUpdateRequest, h1, h2, h3, if_true, if_false] <;>
        rfl

/-- C8: an update request serializes the image URL always, the function
requirements exactly when not in image-only mode and functions were
determined, each worker bound exactly when its flag was set non-negative,
and never the untouched name/model/secret fields; in particular an
image-only update with unset worker flags transmits exactly the image
URL. -/
theorem update_request_partial_fields (opts : UpdateOptions)
    (functions : List DetectedFunction) (tag : String) (htag : tag ≠ "") :
    ("image_url" ∈ serializedKeys (buildUpdateRequest opts functions tag)) ∧
    ("function_requirements" ∈ serializedKeys (buildUpdateRequest opts functions tag) ↔
      (opts.imageOnly = false ∧ functions ≠ [])) ∧
    ("min_workers" ∈ serializedKeys (buildUpdateRequest opts functions tag) ↔ 0 ≤ opts.minWorkers) ∧
    ("max_workers" ∈ serializedKeys (buildUpdateRequest opts functions tag) ↔ 0 ≤ opts.maxWorkers) ∧
    "name" ∉ serializedKeys (buildUpdateRequest opts functions tag) ∧
    "supported_model_ids" ∉ serializedKeys (buildUpdateRequest opts functions tag) ∧
    "runpod_secret_mapping" ∉ serializedKeys (buildUpdateRequest opts functions tag) ∧
    (opts.imageOnly = true → opts.minWorkers < 0 → opts.maxWorkers < 0 →
      serializedKeys (buildUpdateRequest opts functions tag) = ["image_url"]) := by
  rw [buildUpdateRequest_eq]
  by_cases h1 : opts.imageOnly <;>
    by_cases hfn : functions = [] <;>
      by_cases h2 : opts.minWorkers ≥ 0 <;>
        by_cases h3 : opts.maxWorkers ≥ 0 <;>
          simp [serializedKeys, h1, hfn, h2, h3, htag, List.length_pos]

/-- C8 witness: the image-only update with worker flags left at their
`-1` defaults serializes exactly the image URL, leaving the function and
worker configuration untouched. -/
theorem update_request_partial_fields_witness :
    serializedKeys (buildUpdateRequest { imageOnly := true } [⟨"generate", true⟩] "img:1") =
      ["image_url"] :=
  (update_request_partial_fields { imageOnly := true } [⟨"generate", true⟩] "img:1"
    (by decide)).2.2.2.2.2.2.2 rfl (by decide) (by decide)

/-- C9 (code bug): a quote character within the last two characters of
the content reaches the triple-quote test whose bounds guard only covers
the first disjunct, so the second `content[i:i+3]` slice is out of range:
the Go program panics, modelled as `Except.error ()`, for both quote
kinds and both offending positions. -/
theorem findSignatureEnd_trailing_quote_panics :
    findSignatureEnd "def f('".data 6 = Except.error () ∧
    findSignatureEnd "x'".data 0 = Except.error () ∧
    findSignatureEnd "x\"".data 0 = Except.error () := by decide

/-- C10: fetching a deployment against a 404 answer yields no deployment
and no error; the update command turns that `nil` into its own use-create
error, and only update and delete report a 404 as an error. -/
theorem get_notfound_is_nil_nil (id : String) (body : HttpBody) :
    GetDeploymentResult 404 body = Except.ok none ∧
    UpdateDeploymentResult id 404 body =
      Except.error ("deployment '" ++ id ++ "' not found (use 'cozyctl deploy' to create)") ∧
    DeleteDeploymentResult id 404 body = Except.error ("deployment '" ++ id ++ "' not found") ∧
    checkExistingDeployment id none =
      Except.error ("deployment '" ++ id ++ "' not found (use 'cozyctl deploy' to create)") :=
  ⟨rfl, by simp [UpdateDeploymentResult], by simp [DeleteDeploymentResult], rfl⟩

end Cozyctl
